import Mathlib

/-!
Shallow embedding of the DynamoDB-backed certmagic storage module
(package `dynamodbstorage`, aws-sdk-go-v2 variant): the blob operations
`Store` / `Load` / `Delete` / `Exists` / `Stat`, the lease-based lock
operations `Lock` / `keepLockFresh` / `updateLockExpiration` / `Unlock`,
and the DynamoDB conditional-write primitives they rely on.

Bytes are `Nat` values below 256, strings of stored contents are `List Char`,
Unix timestamps are `Int`.  The DynamoDB table is an association list from
primary key to item; conditional puts / updates / deletes are modelled as
pure functions returning the new table together with the outcome.
-/

namespace CertMagicDynamo

/-- Alphabet of Go's `encoding/base64` StdEncoding
("ABCDEFGHIJKLMNOPQRSTUVWXYZabcdefghijklmnopqrstuvwxyz0123456789+/"),
used by `Store` via `base64.StdEncoding.EncodeToString`. -/
def b64alphabet : List Char :=
  ['A', 'B', 'C', 'D', 'E', 'F', 'G', 'H', 'I', 'J', 'K', 'L', 'M',
   'N', 'O', 'P', 'Q', 'R', 'S', 'T', 'U', 'V', 'W', 'X', 'Y', 'Z',
   'a', 'b', 'c', 'd', 'e', 'f', 'g', 'h', 'i', 'j', 'k', 'l', 'm',
   'n', 'o', 'p', 'q', 'r', 's', 't', 'u', 'v', 'w', 'x', 'y', 'z',
   '0', '1', '2', '3', '4', '5', '6', '7', '8', '9', '+', '/']

/-- Character standing for a six-bit group, as Go indexes the alphabet string. -/
def b64alpha (s : Nat) : Char := b64alphabet.getD s 'A'

/-- Six-bit value of an alphabet character (`none` for padding or foreign
characters), as Go's decode map assigns it. -/
def b64dec (c : Char) : Option Nat :=
  if 'A' ≤ c ∧ c ≤ 'Z' then some (c.toNat - 65)
  else if 'a' ≤ c ∧ c ≤ 'z' then some (c.toNat - 97 + 26)
  else if '0' ≤ c ∧ c ≤ '9' then some (c.toNat - 48 + 52)
  else if c = '+' then some 62
  else if c = '/' then some 63
  else none

/-- Go's `base64.StdEncoding.EncodeToString`: three bytes become four
alphabet characters; a final group of one or two bytes is padded with `=`. -/
def b64encode : List Nat → List Char
  | [] => []
  | [b0] => [b64alpha (b0 / 4), b64alpha (b0 % 4 * 16), '=', '=']
  | [b0, b1] =>
      [b64alpha (b0 / 4), b64alpha (b0 % 4 * 16 + b1 / 16),
       b64alpha (b1 % 16 * 4), '=']
  | b0 :: b1 :: b2 :: rest =>
      b64alpha (b0 / 4) :: b64alpha (b0 % 4 * 16 + b1 / 16) ::
      b64alpha (b1 % 16 * 4 + b2 / 64) :: b64alpha (b2 % 64) ::
      b64encode rest

/-- Go's `base64.StdEncoding.DecodeString` on inputs without line breaks:
four-character quanta, `=` padding legal only at the tail of the final
quantum; anything else is a decode error (`none`). -/
def b64decode : List Char → Option (List Nat)
  | [] => some []
  | c0 :: c1 :: c2 :: c3 :: rest =>
    match b64dec c0, b64dec c1 with
    | some s0, some s1 =>
      if c2 = '=' then
        if c3 = '=' ∧ rest = [] then some [s0 * 4 + s1 / 16] else none
      else
        match b64dec c2 with
        | some s2 =>
          if c3 = '=' then
            if rest = [] then some [s0 * 4 + s1 / 16, s1 % 16 * 16 + s2 / 4]
            else none
          else
            match b64dec c3, b64decode rest with
            | some s3, some tail =>
                some ((s0 * 4 + s1 / 16) :: (s1 % 16 * 16 + s2 / 4) ::
                      (s2 % 4 * 64 + s3) :: tail)
            | _, _ => none
        | none => none
    | _, _ => none
  | _ => none

theorem b64dec_b64alpha : ∀ s : Nat, s < 64 → b64dec (b64alpha s) = some s := by
  decide

theorem b64alpha_ne_pad {s : Nat} (h : s < 64) : b64alpha s ≠ '=' := by
  intro he
  have := b64dec_b64alpha s h
  rw [he] at this
  simp [b64dec] at this

theorem b64encode_ne_nil {l : List Nat} (h : l ≠ []) : b64encode l ≠ [] := by
  rcases l with _ | ⟨b0, _ | ⟨b1, _ | ⟨b2, rest⟩⟩⟩ <;> simp_all [b64encode]

/-- The decode applied on read is a left inverse of the encode applied by
`Store`, on every byte sequence. -/
theorem b64decode_b64encode :
    ∀ l : List Nat, (∀ b ∈ l, b < 256) → b64decode (b64encode l) = some l := by
  intro l
  induction l using b64encode.induct with
  | case1 =>
      intro _; simp [b64encode, b64decode]
  | case2 b0 =>
      intro hb
      have h0 : b0 < 256 := hb b0 (by simp)
      have d0 := b64dec_b64alpha (b0 / 4) (by omega)
      have d1 := b64dec_b64alpha (b0 % 4 * 16) (by omega)
      simp [b64encode, b64decode, d0, d1]
      omega
  | case3 b0 b1 =>
      intro hb
      have h0 : b0 < 256 := hb b0 (by simp)
      have h1 : b1 < 256 := hb b1 (by simp)
      have d0 := b64dec_b64alpha (b0 / 4) (by omega)
      have d1 := b64dec_b64alpha (b0 % 4 * 16 + b1 / 16) (by omega)
      have d2 := b64dec_b64alpha (b1 % 16 * 4) (by omega)
      have hne : b64alpha (b1 % 16 * 4) ≠ '=' := b64alpha_ne_pad (by omega)
      simp [b64encode, b64decode, d0, d1, d2, hne]
      omega
  | case4 b0 b1 b2 rest ih =>
      intro hb
      have h0 : b0 < 256 := hb b0 (by simp)
      have h1 : b1 < 256 := hb b1 (by simp)
      have h2 : b2 < 256 := hb b2 (by simp)
      have hrest : ∀ b ∈ rest, b < 256 := fun b hbr => hb b (by simp [hbr])
      have d0 := b64dec_b64alpha (b0 / 4) (by omega)
      have d1 := b64dec_b64alpha (b0 % 4 * 16 + b1 / 16) (by omega)
      have d2 := b64dec_b64alpha (b1 % 16 * 4 + b2 / 64) (by omega)
      have d3 := b64dec_b64alpha (b2 % 64) (by omega)
      have hne2 : b64alpha (b1 % 16 * 4 + b2 / 64) ≠ '=' := b64alpha_ne_pad (by omega)
      have hne3 : b64alpha (b2 % 64) ≠ '=' := b64alpha_ne_pad (by omega)
      simp [b64encode, b64decode, d0, d1, d2, d3, hne2, hne3, ih hrest]
      omega

/-- An item of the DynamoDB table.  `Store` writes the `Contents` and
`LastUpdated` attributes; the lock operations write `LockID` and `ExpiresAt`.
Absent attributes are `none`.  `LastUpdated` timestamps are modelled as the
integer instant at which the write happened. -/
structure DBItem where
  contents : Option (List Char)
  lastUpdated : Option Int
  lockID : Option String
  expiresAt : Option Int
deriving DecidableEq

/-- The DynamoDB table: an association list from `PrimaryKey` to the item. -/
def Table := List (String × DBItem)

instance : DecidableEq Table := by unfold Table; infer_instance

/-- Item lookup by primary key (DynamoDB `GetItem` with consistent read). -/
def lookupTbl (tbl : Table) (k : String) : Option DBItem := List.lookup k tbl

/-- DynamoDB `PutItem` without condition: the whole item under key `k` is
replaced. -/
def insertTbl (tbl : Table) (k : String) (it : DBItem) : Table :=
  (k, it) :: tbl.filter (fun p => p.1 != k)

/-- DynamoDB `DeleteItem` without condition. -/
def eraseTbl (tbl : Table) (k : String) : Table :=
  tbl.filter (fun p => p.1 != k)

/-- Errors surfaced by the blob operations. -/
inductive StErr
  | emptyKey
  | notExist
  | badEncoding
deriving DecidableEq

/-- One call issued to the backing DynamoDB store. -/
inductive StoreCall
  | putItem (key : String) (it : DBItem)
  | getItemCall (key : String)
  | deleteItem (key : String)
  | updateItem (key : String)
deriving DecidableEq

/-- Item written by `Store`: `{PrimaryKey, Contents = base64(value),
LastUpdated = now}` (no lock attributes). -/
def storeItem (value : List Nat) (now : Int) : DBItem :=
  { contents := some (b64encode value), lastUpdated := some now,
    lockID := none, expiresAt := none }

/-- `Storage.Store`: base64-encode the value and `PutItem` it under the key;
an empty key is rejected before the `PutItem` is issued. -/
def storeOp (tbl : Table) (key : String) (value : List Nat) (now : Int) :
    Except StErr Unit × Table × List StoreCall :=
  if key = "" then (.error .emptyKey, tbl, [])
  else (.ok (), insertTbl tbl key (storeItem value now),
        [.putItem key (storeItem value now)])

/-- `Storage.getItem`: `GetItem` the key; a missing item unmarshals to the
zero `Item`, so an item whose `Contents` attribute is absent or empty is
reported as `fs.ErrNotExist`; otherwise the contents are base64-decoded. -/
def getItem (tbl : Table) (key : String) :
    Except StErr (List Nat × Option Int) × List StoreCall :=
  let it := (lookupTbl tbl key).getD ⟨none, none, none, none⟩
  let cs := it.contents.getD []
  (if cs = [] then .error .notExist
   else
     match b64decode cs with
     | some bytes => .ok (bytes, it.lastUpdated)
     | none => .error .badEncoding,
   [.getItemCall key])

/-- `Storage.Load`: reject an empty key before any store call, then read and
decode via `getItem`. -/
def loadOp (tbl : Table) (key : String) :
    Except StErr (List Nat) × List StoreCall :=
  if key = "" then (.error .emptyKey, [])
  else
    let (r, calls) := getItem tbl key
    (r.map (fun p => p.1), calls)

/-- `Storage.Delete`: reject an empty key before any store call, then
`DeleteItem` the key. -/
def deleteOp (tbl : Table) (key : String) :
    Except StErr Unit × Table × List StoreCall :=
  if key = "" then (.error .emptyKey, tbl, [])
  else (.ok (), eraseTbl tbl key, [.deleteItem key])

/-- `Storage.Exists`: true exactly when `Load` returned no error and a
non-empty value. -/
def existsOp (tbl : Table) (key : String) : Bool :=
  match (loadOp tbl key).1 with
  | .ok v => !v.isEmpty
  | .error _ => false

/-- Result of `Storage.Stat`. -/
structure KeyInfo where
  key : String
  modified : Option Int
  size : Int
  isTerminal : Bool
deriving DecidableEq

/-- `Storage.Stat`: read via `getItem` (with no empty-key validation of its
own, exactly as in the source) and report size of the decoded contents. -/
def statOp (tbl : Table) (key : String) :
    Except StErr KeyInfo × List StoreCall :=
  let (r, calls) := getItem tbl key
  (r.map (fun p => ⟨key, p.2, (p.1.length : Int), true⟩), calls)

theorem lookupTbl_insertTbl_self (tbl : Table) (k : String) (it : DBItem) :
    lookupTbl (insertTbl tbl k it) k = some it := by
  simp [lookupTbl, insertTbl, List.lookup]

theorem lookup_filter_ne_self (l : List (String × α)) (k : String) :
    List.lookup k (l.filter (fun p => p.1 != k)) = none := by
  induction l with
  | nil => rfl
  | cons p rest ih =>
      by_cases h : p.1 = k
      · simp [List.filter, h, ih]
      · have hb : (p.1 != k) = true := by simp [h]
        simp only [List.filter, hb]
        have hk : (k == p.1) = false := by
          simp [beq_eq_false_iff_ne, Ne.symm h]
        simp [List.lookup, hk, ih]

/-- In-process record of a held lock (`LockHandle` in the source; the
`cancelFunc` is modelled by the refresher state machine below). -/
structure LockHandle where
  key : String
  lockID : String
deriving DecidableEq

/-- Derived store key of the lease record: `fmt.Sprintf("LOCK-%s", key)`. -/
def lockKeyOf (key : String) : String := "LOCK-" ++ key

/-- Lease record written by `Lock`'s conditional put:
`{PrimaryKey, LockID, ExpiresAt}` and nothing else. -/
def lockItem (lockID : String) (exp : Int) : DBItem :=
  { contents := none, lastUpdated := none,
    lockID := some lockID, expiresAt := some exp }

/-- Whether a stored item counts as an expired lease at instant `now`:
the condition `ExpiresAt < :now` is true only when the attribute is present
and strictly smaller than `now`. -/
def lockExpired (it : DBItem) (now : Int) : Bool :=
  match it.expiresAt with
  | none => false
  | some e => decide (e < now)

/-- Condition of `Lock`'s `PutItem`:
`attribute_not_exists(PrimaryKey) OR ExpiresAt < :now`. -/
def lockCondHolds (tbl : Table) (k : String) (now : Int) : Bool :=
  match lookupTbl tbl k with
  | none => true
  | some it => lockExpired it now

/-- `updateLockExpiration`'s conditional `UpdateItem`:
`SET ExpiresAt = :newExpiresAt` under the condition `LockID = :lockID`.
Returns whether the condition held together with the resulting table
(unchanged on condition failure). -/
def condUpdateExpiry (tbl : Table) (k lockID : String) (newExp : Int) :
    Bool × Table :=
  match lookupTbl tbl k with
  | some it =>
      if it.lockID = some lockID then
        (true, insertTbl tbl k { it with expiresAt := some newExp })
      else (false, tbl)
  | none => (false, tbl)

/-- `Unlock`'s conditional `DeleteItem` under the condition
`LockID = :lockID` (unchanged table on condition failure; the condition also
fails when no item exists). -/
def condDeleteLock (tbl : Table) (k lockID : String) : Bool × Table :=
  match lookupTbl tbl k with
  | some it =>
      if it.lockID = some lockID then (true, eraseTbl tbl k)
      else (false, tbl)
  | none => (false, tbl)

/-- Environment of one iteration of `Lock`'s polling loop: the table the
conditional put runs against (other processes may have changed it while we
slept), the wall-clock instant `time.Now().Unix()` of the attempt, whether
the store fails the call with a non-condition error, and whether the
caller's context is done when the post-failure wait runs. -/
structure LockEnv where
  tbl : Table
  now : Int
  inject : Bool
  ctxDone : Bool
deriving DecidableEq

/-- A conditional put issued by `Lock`: the item written and the `:now`
value the condition compares `ExpiresAt` against. -/
structure PutRequest where
  item : DBItem
  condNow : Int
deriving DecidableEq

/-- Outcome of a `Lock` call over a finite schedule of attempts. -/
inductive LockOutcome
  | acquired (h : LockHandle) (tbl : Table)
  | ctxCancelled
  | stillPolling
deriving DecidableEq

/-- `Storage.Lock`: `lockID` is minted and `expiresAt` computed once, before
the loop; each iteration rebuilds the `PutItemInput` from those loop-invariant
values plus a fresh `:now`, attempts the conditional put, and on any error
waits for the poll timer or the context.  The function returns the list of
put requests issued together with the outcome. -/
def lockRun (timeout : Int) (key u : String) (t0 : Int) :
    List LockEnv → List PutRequest × LockOutcome
  | [] => ([], .stillPolling)
  | env :: rest =>
    let item := lockItem u (t0 + timeout)
    let req : PutRequest := ⟨item, env.now⟩
    if !env.inject && lockCondHolds env.tbl (lockKeyOf key) env.now then
      ([req], .acquired ⟨key, u⟩ (insertTbl env.tbl (lockKeyOf key) item))
    else if env.ctxDone then ([req], .ctxCancelled)
    else
      let r := lockRun timeout key u t0 rest
      (req :: r.1, r.2)

/-- Result of `updateLockExpiration`. -/
inductive UpdResult
  | ok
  | lockLost
  | retriesExhausted
deriving DecidableEq

/-- Retry loop of `updateLockExpiration` (`for range 3`): `inj` tells for
each try whether the store fails it with a transient non-condition error; a
`ConditionalCheckFailedException` returns at once with no further try.  The
third component counts the `UpdateItem` calls issued. -/
def updateLoop (k lockID : String) (newExp : Int) :
    Nat → Table → List Bool → UpdResult × Table × Nat
  | 0, tbl, _ => (.retriesExhausted, tbl, 0)
  | n + 1, tbl, inj =>
      if inj.headD false then
        let r := updateLoop k lockID newExp n tbl inj.tail
        (r.1, r.2.1, r.2.2 + 1)
      else
        let c := condUpdateExpiry tbl k lockID newExp
        if c.1 then (.ok, c.2, 1) else (.lockLost, tbl, 1)

/-- `updateLockExpiration`: the new expiry `now + LockTimeout` is computed
once, then the conditional update is tried up to 3 times. -/
def updateLockExpiration (tbl : Table) (h : LockHandle) (timeout now : Int)
    (inj : List Bool) : UpdResult × Table × Nat :=
  updateLoop (lockKeyOf h.key) h.lockID (now + timeout) 3 tbl inj

/-- State of the `keepLockFresh` goroutine. -/
inductive RefreshState
  | active
  | stopped
deriving DecidableEq

/-- One ticker firing inside `keepLockFresh`: `updateLockExpiration` runs
and any error it returns stops the refresher for good. -/
def refreshTick (tbl : Table) (h : LockHandle) (timeout now : Int)
    (inj : List Bool) : RefreshState × Table × Nat :=
  match updateLockExpiration tbl h timeout now inj with
  | (.ok, t, n) => (.active, t, n)
  | (_, t, n) => (.stopped, t, n)

/-- Whole in-process state of a `Storage`: the DynamoDB table plus the
`s.locks` sync.Map from key to `LockHandle`. -/
structure SState where
  table : Table
  locks : List (String × LockHandle)
deriving DecidableEq

/-- Result of `Storage.Unlock`. -/
inductive UnlockResult
  | ok
  | noLockHandle
  | lockLost
  | storeFault
deriving DecidableEq

/-- `Storage.Unlock`: `LoadAndDelete` the handle (error, with no store call,
when absent), cancel the refresher, then issue the conditional delete;
`inject` makes the `DeleteItem` fail with a non-condition store error, which
is propagated. -/
def unlock (st : SState) (key : String) (inject : Bool) :
    UnlockResult × SState × List StoreCall :=
  match List.lookup key st.locks with
  | none => (.noLockHandle, st, [])
  | some h =>
    let locks2 := st.locks.filter (fun p => p.1 != key)
    if inject then
      (.storeFault, ⟨st.table, locks2⟩, [.deleteItem (lockKeyOf key)])
    else
      let d := condDeleteLock st.table (lockKeyOf key) h.lockID
      if d.1 then (.ok, ⟨d.2, locks2⟩, [.deleteItem (lockKeyOf key)])
      else (.lockLost, ⟨st.table, locks2⟩, [.deleteItem (lockKeyOf key)])

/-- The store-level lock operations, for the reachable-states invariant:
`Lock`'s conditional put, the refresher's conditional update, and `Unlock`'s
conditional delete, each applied at the instant and with the arguments the
caller used. -/
inductive LockOp
  | acquirePut (k lockID : String) (exp now : Int)
  | refresh (k lockID : String) (newExp : Int)
  | release (k lockID : String)

/-- Effect of one lock operation on the table (unchanged when its condition
fails). -/
def applyOp (tbl : Table) : LockOp → Table
  | .acquirePut k id exp now =>
      if lockCondHolds tbl k now then insertTbl tbl k (lockItem id exp)
      else tbl
  | .refresh k id newExp => (condUpdateExpiry tbl k id newExp).2
  | .release k id => (condDeleteLock tbl k id).2

/-- Table reached from the empty store by a sequence of lock operations. -/
def runOps (ops : List LockOp) : Table := ops.foldl applyOp []

theorem nodup_keys_insertTbl {tbl : Table} (k : String) (it : DBItem)
    (h : (tbl.map Prod.fst).Nodup) :
    ((insertTbl tbl k it).map Prod.fst).Nodup := by
  simp only [insertTbl, List.map_cons]
  rw [List.nodup_cons]
  refine ⟨?_, (List.filter_sublist tbl).map Prod.fst |>.nodup h⟩
  intro hmem
  obtain ⟨p, hp, hpk⟩ := List.mem_map.mp hmem
  have hne := List.of_mem_filter hp
  rw [bne_iff_ne] at hne
  exact hne hpk

theorem nodup_keys_eraseTbl {tbl : Table} (k : String)
    (h : (tbl.map Prod.fst).Nodup) :
    ((eraseTbl tbl k).map Prod.fst).Nodup :=
  (List.filter_sublist tbl).map Prod.fst |>.nodup h

theorem nodup_keys_applyOp {tbl : Table} (op : LockOp)
    (h : (tbl.map Prod.fst).Nodup) :
    ((applyOp tbl op).map Prod.fst).Nodup := by
  cases op with
  | acquirePut k id exp now =>
      simp only [applyOp]
      split
      · exact nodup_keys_insertTbl k _ h
      · exact h
  | refresh k id newExp =>
      simp only [applyOp, condUpdateExpiry]
      cases hl : lookupTbl tbl k with
      | none => exact h
      | some it =>
          by_cases hid : it.lockID = some id
          · simp only [hid, if_pos rfl]
            exact nodup_keys_insertTbl k _ h
          · simp only [if_neg hid]
            exact h
  | release k id =>
      simp only [applyOp, condDeleteLock]
      cases hl : lookupTbl tbl k with
      | none => exact h
      | some it =>
          by_cases hid : it.lockID = some id
          · simp only [hid, if_pos rfl]
            exact nodup_keys_eraseTbl k h
          · simp only [if_neg hid]
            exact h

theorem nodup_keys_foldl :
    ∀ (ops : List LockOp) (tbl : Table), (tbl.map Prod.fst).Nodup →
      ((ops.foldl applyOp tbl).map Prod.fst).Nodup := by
  intro ops
  induction ops with
  | nil => exact fun tbl h => h
  | cons op rest ih =>
      intro tbl h
      exact ih _ (nodup_keys_applyOp op h)

/-- C1.  Every table reachable from the empty store by the three lock
operations has at most one item — hence at most one unexpired lease
record — per resource key; `Lock`'s conditional put never changes the table
while the stored record is unexpired at the attempt's instant, and it does
overwrite a record whose expiry lies strictly in the past. -/
theorem lock_store_invariant :
    (∀ ops : List LockOp, ((runOps ops).map Prod.fst).Nodup) ∧
    (∀ (tbl : Table) (k id : String) (exp now : Int) (it : DBItem),
        lookupTbl tbl k = some it → lockExpired it now = false →
        applyOp tbl (.acquirePut k id exp now) = tbl) ∧
    (∀ (tbl : Table) (k id : String) (exp now : Int) (it : DBItem),
        lookupTbl tbl k = some it → lockExpired it now = true →
        applyOp tbl (.acquirePut k id exp now) =
          insertTbl tbl k (lockItem id exp)) := by
  refine ⟨fun ops => nodup_keys_foldl ops [] (by simp), ?_, ?_⟩
  · intro tbl k id exp now it hl he
    simp [applyOp, lockCondHolds, hl, he]
  · intro tbl k id exp now it hl he
    simp [applyOp, lockCondHolds, hl, he]

theorem lock_store_invariant_witness :
    lookupTbl [(lockKeyOf "k", lockItem "a" 50)] (lockKeyOf "k") =
      some (lockItem "a" 50) ∧
    lockExpired (lockItem "a" 50) 40 = false ∧
    applyOp [(lockKeyOf "k", lockItem "a" 50)]
        (.acquirePut (lockKeyOf "k") "b" 340 40) =
      [(lockKeyOf "k", lockItem "a" 50)] :=
  ⟨by decide, by decide,
   lock_store_invariant.2.1 [(lockKeyOf "k", lockItem "a" 50)] (lockKeyOf "k")
     "b" 340 40 (lockItem "a" 50) (by decide) (by decide)⟩

theorem lockRun_requests (timeout : Int) (key u : String) (t0 : Int) :
    ∀ envs : List LockEnv,
      (lockRun timeout key u t0 envs).1 =
        (envs.take (lockRun timeout key u t0 envs).1.length).map
          (fun e => ⟨lockItem u (t0 + timeout), e.now⟩) := by
  intro envs
  induction envs with
  | nil => rfl
  | cons env rest ih =>
      by_cases hc :
          (!env.inject && lockCondHolds env.tbl (lockKeyOf key) env.now) = true
      · simp [lockRun, hc]
      · by_cases hd : env.ctxDone = true
        · simp [lockRun, hc, hd]
        · simp only [lockRun, Bool.not_eq_true] at hc hd ⊢
          simp only [hc, hd, Bool.false_eq_true, if_false, List.length_cons,
            List.take_succ_cons, List.map_cons]
          exact congrArg _ ih

/-- C2 (amended).  Within one `Lock` call the owner token is minted once,
before the loop: every conditional put of the call writes the same
`LockID` value `u`. -/
theorem lock_token_constant (timeout : Int) (key u : String) (t0 : Int)
    (envs : List LockEnv) :
    ((lockRun timeout key u t0 envs).1).map (fun r => r.item.lockID) =
      List.replicate ((lockRun timeout key u t0 envs).1).length (some u) := by
  rw [lockRun_requests timeout key u t0 envs]
  simp [List.map_map, Function.comp_def, lockItem, List.map_const']

/-- C2 (counterexample).  A `Lock` call whose first conditional put fails
its condition and whose second succeeds writes the very same token on both
attempts, so the tokens of one call's retries are not pairwise distinct. -/
theorem lock_token_reuse_counterexample :
    ((lockRun 300 "k" "u0" 0
        [⟨[(lockKeyOf "k", lockItem "w" 100)], 10, false, false⟩,
         ⟨[], 20, false, false⟩]).1).length = 2 ∧
    ¬ (((lockRun 300 "k" "u0" 0
        [⟨[(lockKeyOf "k", lockItem "w" 100)], 10, false, false⟩,
         ⟨[], 20, false, false⟩]).1).map (fun r => r.item.lockID)).Nodup := by
  constructor
  · decide
  · decide

/-- C3 (amended).  Every conditional put of a `Lock` call writes
`expiresAt = t0 + LockTimeout` where `t0` is the instant the call started —
the expiry is computed once and reused by every retry — while the
condition's `:now` is the attempt's own instant; a single attempt succeeds
exactly when the store call does not fault and no record exists for the key
or the stored record's `ExpiresAt` is strictly before that attempt's now. -/
theorem lock_expiry_call_start :
    (∀ (timeout : Int) (key u : String) (t0 : Int) (envs : List LockEnv),
        (lockRun timeout key u t0 envs).1 =
          (envs.take (lockRun timeout key u t0 envs).1.length).map
            (fun e => ⟨lockItem u (t0 + timeout), e.now⟩)) ∧
    (∀ (timeout : Int) (key u : String) (t0 : Int) (env : LockEnv),
        (lockRun timeout key u t0 [env]).2 =
            .acquired ⟨key, u⟩
              (insertTbl env.tbl (lockKeyOf key) (lockItem u (t0 + timeout)))
          ↔ (env.inject = false ∧
             lockCondHolds env.tbl (lockKeyOf key) env.now = true)) := by
  constructor
  · exact lockRun_requests
  · intro timeout key u t0 env
    by_cases hc :
        (!env.inject && lockCondHolds env.tbl (lockKeyOf key) env.now) = true
    · simp only [Bool.and_eq_true, Bool.not_eq_true'] at hc
      simp [lockRun, hc.1, hc.2]
    · simp only [Bool.and_eq_true, Bool.not_eq_true'] at hc
      rw [not_and_or] at hc
      by_cases hd : env.ctxDone = true
      · rcases hc with hc | hc
        · simp [lockRun, hd, hc, Bool.not_eq_false]
        · cases hcond : lockCondHolds env.tbl (lockKeyOf key) env.now
          · cases hinj : env.inject <;> simp [lockRun, hd, hinj, hcond]
          · exact absurd hcond hc
      · rcases hc with hc | hc
        · simp [lockRun, hd, hc, Bool.not_eq_false]
        · cases hcond : lockCondHolds env.tbl (lockKeyOf key) env.now
          · cases hinj : env.inject <;> simp [lockRun, hd, hinj, hcond]
          · exact absurd hcond hc

/-- C3 (counterexample).  In a `Lock` call started at `t0 = 0` with timeout
300, a retry at instant 20 still writes `expiresAt = 300`, not the
`20 + 300` the claim requires for a write attempted at instant 20. -/
theorem lock_expiry_stale_counterexample :
    ((lockRun 300 "k" "u0" 0
        [⟨[(lockKeyOf "k", lockItem "w" 100)], 10, false, false⟩,
         ⟨[], 20, false, false⟩]).1).map (fun r => (r.item.expiresAt, r.condNow)) =
      [(some 300, 10), (some 300, 20)] ∧
    (some (300 : Int)) ≠ some (20 + 300 : Int) := by
  constructor
  · decide
  · decide

/-- C4 (amended).  `Lock` does not distinguish a non-condition store error
from a condition failure: an attempt that fails for either reason leads to
the same wait-then-retry continuation, so the call's outcome is the same
under both; and the only error outcome the loop can produce is the caller's
context cancellation — a store fault is never surfaced. -/
theorem lock_error_not_distinguished :
    (∀ (timeout : Int) (key u : String) (t0 : Int) (e1 e2 : LockEnv)
        (rest : List LockEnv),
        (!e1.inject && lockCondHolds e1.tbl (lockKeyOf key) e1.now) = false →
        (!e2.inject && lockCondHolds e2.tbl (lockKeyOf key) e2.now) = false →
        e1.ctxDone = e2.ctxDone →
        (lockRun timeout key u t0 (e1 :: rest)).2 =
          (lockRun timeout key u t0 (e2 :: rest)).2) ∧
    (∀ (timeout : Int) (key u : String) (t0 : Int) (envs : List LockEnv),
        (lockRun timeout key u t0 envs).2 = .ctxCancelled →
        ∃ env ∈ envs, env.ctxDone = true) := by
  constructor
  · intro timeout key u t0 e1 e2 rest h1 h2 hctx
    by_cases hd : e2.ctxDone = true
    · simp [lockRun, h1, h2, hctx, hd]
    · simp only [Bool.not_eq_true] at hd
      simp [lockRun, h1, h2, hctx, hd]
  · intro timeout key u t0 envs
    induction envs with
    | nil => simp [lockRun]
    | cons env rest ih =>
        intro hout
        by_cases hc :
            (!env.inject && lockCondHolds env.tbl (lockKeyOf key) env.now) = true
        · simp [lockRun, hc] at hout
        · by_cases hd : env.ctxDone = true
          · exact ⟨env, by simp, hd⟩
          · simp only [Bool.not_eq_true] at hd
            simp only [lockRun, hc, Bool.false_eq_true, if_false, hd] at hout
            obtain ⟨e, he, hed⟩ := ih hout
            exact ⟨e, by simp [he], hed⟩

theorem lock_error_not_distinguished_witness :
    (!(⟨[], 10, true, false⟩ : LockEnv).inject &&
        lockCondHolds (⟨[], 10, true, false⟩ : LockEnv).tbl (lockKeyOf "k")
          (⟨[], 10, true, false⟩ : LockEnv).now) = false ∧
    (!(⟨[(lockKeyOf "k", lockItem "w" 100)], 10, false, false⟩ : LockEnv).inject &&
        lockCondHolds
          (⟨[(lockKeyOf "k", lockItem "w" 100)], 10, false, false⟩ : LockEnv).tbl
          (lockKeyOf "k")
          (⟨[(lockKeyOf "k", lockItem "w" 100)], 10, false, false⟩ : LockEnv).now) =
      false ∧
    (lockRun 300 "k" "u0" 0
        [⟨[], 10, true, false⟩, ⟨[], 20, false, false⟩]).2 =
      (lockRun 300 "k" "u0" 0
        [⟨[(lockKeyOf "k", lockItem "w" 100)], 10, false, false⟩,
         ⟨[], 20, false, false⟩]).2 :=
  ⟨by decide, by decide,
   lock_error_not_distinguished.1 300 "k" "u0" 0
     ⟨[], 10, true, false⟩
     ⟨[(lockKeyOf "k", lockItem "w" 100)], 10, false, false⟩
     [⟨[], 20, false, false⟩] (by decide) (by decide) (by decide)⟩

/-- C4 (counterexample).  A `Lock` call whose first conditional put fails
with a non-condition store error (injected fault, condition irrelevant) does
not surface any error: it polls, issues a second put, and returns success —
so a non-condition store error is not surfaced immediately as fatal. -/
theorem lock_store_error_retry_counterexample :
    lockRun 300 "k" "u0" 0
        [⟨[], 10, true, false⟩, ⟨[], 20, false, false⟩] =
      ([⟨lockItem "u0" 300, 10⟩, ⟨lockItem "u0" 300, 20⟩],
       .acquired ⟨"k", "u0"⟩
         (insertTbl [] (lockKeyOf "k") (lockItem "u0" 300))) := by
  decide

/-- C5.  Fencing: once the stored lease record carries a token other than
the old holder's, the old holder's conditional update and conditional delete
both fail their `LockID = :lockID` condition and leave the table unchanged;
`updateLockExpiration` returns the lock-lost error after exactly one
`UpdateItem` call (no retry on a condition failure), and the `keepLockFresh`
tick that sees this transitions the refresher to `stopped`. -/
theorem fencing_correctness :
    (∀ (tbl : Table) (k oldTok newTok : String) (it : DBItem) (newExp : Int),
        lookupTbl tbl k = some it → it.lockID = some newTok →
        oldTok ≠ newTok →
        condUpdateExpiry tbl k oldTok newExp = (false, tbl) ∧
        condDeleteLock tbl k oldTok = (false, tbl)) ∧
    (∀ (tbl : Table) (h : LockHandle) (timeout now : Int) (it : DBItem),
        lookupTbl tbl (lockKeyOf h.key) = some it →
        it.lockID ≠ some h.lockID →
        updateLockExpiration tbl h timeout now [] = (.lockLost, tbl, 1) ∧
        refreshTick tbl h timeout now [] = (.stopped, tbl, 1)) := by
  constructor
  · intro tbl k oldTok newTok it newExp hl hid hne
    have hmis : ¬ it.lockID = some oldTok := by
      rw [hid]
      simp [Ne.symm hne]
    constructor
    · simp [condUpdateExpiry, hl, hmis]
    · simp [condDeleteLock, hl, hmis]
  · intro tbl h timeout now it hl hmis
    have hupd :
        updateLockExpiration tbl h timeout now [] = (.lockLost, tbl, 1) := by
      simp [updateLockExpiration, updateLoop, condUpdateExpiry, hl, hmis]
    exact ⟨hupd, by simp [refreshTick, hupd]⟩

theorem fencing_correctness_witness :
    lookupTbl [(lockKeyOf "k", lockItem "B" 500)] (lockKeyOf "k") =
      some (lockItem "B" 500) ∧
    (lockItem "B" 500).lockID ≠ some (⟨"k", "A"⟩ : LockHandle).lockID ∧
    updateLockExpiration [(lockKeyOf "k", lockItem "B" 500)] ⟨"k", "A"⟩ 300 600 [] =
      (.lockLost, [(lockKeyOf "k", lockItem "B" 500)], 1) ∧
    refreshTick [(lockKeyOf "k", lockItem "B" 500)] ⟨"k", "A"⟩ 300 600 [] =
      (.stopped, [(lockKeyOf "k", lockItem "B" 500)], 1) :=
  ⟨by decide, by decide,
   (fencing_correctness.2 [(lockKeyOf "k", lockItem "B" 500)] ⟨"k", "A"⟩ 300 600
     (lockItem "B" 500) (by decide) (by decide)).1,
   (fencing_correctness.2 [(lockKeyOf "k", lockItem "B" 500)] ⟨"k", "A"⟩ 300 600
     (lockItem "B" 500) (by decide) (by decide)).2⟩

/-- C6.  `Unlock` of a key with no handle in the in-process table returns
the distinct no-lock-handle outcome (neither success nor the lease-lost
error), changes nothing, and issues no call to the store. -/
theorem unlock_no_handle :
    ∀ (st : SState) (key : String) (inject : Bool),
      List.lookup key st.locks = none →
      unlock st key inject = (.noLockHandle, st, []) := by
  intro st key inject h
  simp [unlock, h]

theorem unlock_no_handle_witness :
    List.lookup "k" (⟨[], []⟩ : SState).locks = none ∧
    unlock ⟨[], []⟩ "k" false = (.noLockHandle, ⟨[], []⟩, []) :=
  ⟨by decide, unlock_no_handle ⟨[], []⟩ "k" false (by decide)⟩

/-- C7.  When a handle exists for the key, `Unlock` always removes it from
the in-process table — whatever the delete step does, including when a
store fault is injected — and when the stored record is gone or carries a
different token, the conditional delete fails and `Unlock` returns the
explicit lease-lost error, never success, leaving the table unchanged. -/
theorem unlock_lease_lost :
    ∀ (st : SState) (key : String) (h : LockHandle) (inject : Bool),
      List.lookup key st.locks = some h →
      List.lookup key (unlock st key inject).2.1.locks = none ∧
      (unlock st key inject).2.2 = [.deleteItem (lockKeyOf key)] ∧
      (∀ it : DBItem,
          lookupTbl st.table (lockKeyOf key) = some it →
          it.lockID ≠ some h.lockID →
          unlock st key false =
            (.lockLost,
             ⟨st.table, st.locks.filter (fun p => p.1 != key)⟩,
             [.deleteItem (lockKeyOf key)])) ∧
      (lookupTbl st.table (lockKeyOf key) = none →
          unlock st key false =
            (.lockLost,
             ⟨st.table, st.locks.filter (fun p => p.1 != key)⟩,
             [.deleteItem (lockKeyOf key)])) := by
  intro st key h inject hlk
  refine ⟨?_, ?_, ?_, ?_⟩
  · cases hinj : inject
    · simp only [unlock, hlk]
      by_cases hok : (condDeleteLock st.table (lockKeyOf key) h.lockID).1 = true
      · simp [hok, lookup_filter_ne_self]
      · simp only [Bool.not_eq_true] at hok
        simp [hok, lookup_filter_ne_self]
    · simp [unlock, hlk, lookup_filter_ne_self]
  · cases hinj : inject
    · simp only [unlock, hlk]
      by_cases hok : (condDeleteLock st.table (lockKeyOf key) h.lockID).1 = true
      · simp [hok]
      · simp only [Bool.not_eq_true] at hok
        simp [hok]
    · simp [unlock, hlk]
  · intro it hl hmis
    have hmis2 : ¬ it.lockID = some h.lockID := hmis
    simp [unlock, hlk, condDeleteLock, hl, hmis2]
  · intro hl
    simp [unlock, hlk, condDeleteLock, hl]

theorem unlock_lease_lost_witness :
    List.lookup "k"
        (⟨[(lockKeyOf "k", lockItem "B" 500)], [("k", ⟨"k", "A"⟩)]⟩ : SState).locks =
      some (⟨"k", "A"⟩ : LockHandle) ∧
    lookupTbl (⟨[(lockKeyOf "k", lockItem "B" 500)],
        [("k", ⟨"k", "A"⟩)]⟩ : SState).table (lockKeyOf "k") =
      some (lockItem "B" 500) ∧
    (lockItem "B" 500).lockID ≠ some (⟨"k", "A"⟩ : LockHandle).lockID ∧
    unlock ⟨[(lockKeyOf "k", lockItem "B" 500)], [("k", ⟨"k", "A"⟩)]⟩ "k" false =
      (.lockLost, ⟨[(lockKeyOf "k", lockItem "B" 500)], []⟩,
       [.deleteItem (lockKeyOf "k")]) := by
  refine ⟨by decide, by decide, by decide, ?_⟩
  have h :=
    ((unlock_lease_lost
        ⟨[(lockKeyOf "k", lockItem "B" 500)], [("k", ⟨"k", "A"⟩)]⟩ "k"
        ⟨"k", "A"⟩ false (by decide)).2.2.1 (lockItem "B" 500)
      (by decide) (by decide))
  rw [h]
  decide

/-- C8 (amended).  `Store`, `Load` and `Delete` reject an empty key
synchronously, before any call to the backing store; `Lock` and `Stat`
perform no such validation: `Lock` with an empty key proceeds to a
conditional put against the record key `"LOCK-"` and can return success,
and `Stat` always issues a `GetItem` for the raw key. -/
theorem empty_key_validation :
    (∀ (tbl : Table) (v : List Nat) (now : Int),
        storeOp tbl "" v now = (.error .emptyKey, tbl, [])) ∧
    (∀ tbl : Table, loadOp tbl "" = (.error .emptyKey, [])) ∧
    (∀ tbl : Table, deleteOp tbl "" = (.error .emptyKey, tbl, [])) ∧
    (∀ tbl : Table, (statOp tbl "").2 = [.getItemCall ""]) ∧
    lockRun 300 "" "u0" 0 [⟨[], 5, false, false⟩] =
      ([⟨lockItem "u0" 300, 5⟩],
       .acquired ⟨"", "u0"⟩ (insertTbl [] (lockKeyOf "") (lockItem "u0" 300))) := by
  refine ⟨?_, ?_, ?_, ?_, by decide⟩
  · intro tbl v now; simp [storeOp]
  · intro tbl; simp [loadOp]
  · intro tbl; simp [deleteOp]
  · intro tbl; simp [statOp, getItem]

/-- C8 (counterexample).  `Lock` invoked with the empty key returns success
— no error at all — after issuing a conditional put to the backing store,
refuting that every public operation rejects an empty key before any store
call. -/
theorem empty_key_lock_counterexample :
    (lockRun 300 "" "u0" 0 [⟨[], 5, false, false⟩]).2 =
      .acquired ⟨"", "u0"⟩ (insertTbl [] (lockKeyOf "") (lockItem "u0" 300)) ∧
    ((lockRun 300 "" "u0" 0 [⟨[], 5, false, false⟩]).1).length = 1 := by
  constructor
  · decide
  · decide

/-- C9.  For a non-empty key and non-empty byte value, `Load` right after
`Store` of that key succeeds and returns exactly the stored bytes: the
base64 encoding applied by `Store` and the decoding applied on read are
mutually inverse. -/
theorem store_load_roundtrip :
    ∀ (tbl : Table) (key : String) (value : List Nat) (now : Int),
      key ≠ "" → value ≠ [] → (∀ b ∈ value, b < 256) →
      storeOp tbl key value now =
        (.ok (), insertTbl tbl key (storeItem value now),
         [.putItem key (storeItem value now)]) ∧
      (loadOp (insertTbl tbl key (storeItem value now)) key).1 = .ok value := by
  intro tbl key value now hkey hval hbytes
  constructor
  · simp [storeOp, hkey]
  · simp only [loadOp, if_neg hkey, getItem, lookupTbl_insertTbl_self]
    simp [storeItem, b64encode_ne_nil hval, b64decode_b64encode value hbytes,
      Except.map]

theorem store_load_roundtrip_witness :
    ("a" : String) ≠ "" ∧ ([104, 105] : List Nat) ≠ [] ∧
    (∀ b ∈ ([104, 105] : List Nat), b < 256) ∧
    (loadOp (insertTbl [] "a" (storeItem [104, 105] 0)) "a").1 =
      .ok [104, 105] :=
  ⟨by decide, by decide, by decide,
   (store_load_roundtrip [] "a" [104, 105] 0 (by decide) (by decide)
     (by decide)).2⟩

/-- C10.  Storing an empty value makes the key observably nonexistent:
after `Store(key, [])`, `Load` and `Stat` return the not-exist error and
`Exists` is false — precisely the results these operations give on a key
the table has no item for. -/
theorem empty_value_not_exist :
    ∀ (tbl : Table) (key : String) (now : Int),
      key ≠ "" →
      ((loadOp (storeOp tbl key [] now).2.1 key).1 = .error .notExist ∧
       (statOp (storeOp tbl key [] now).2.1 key).1 = .error .notExist ∧
       existsOp (storeOp tbl key [] now).2.1 key = false) ∧
      (∀ (tbl0 : Table) (k0 : String), k0 ≠ "" → lookupTbl tbl0 k0 = none →
        (loadOp tbl0 k0).1 = .error .notExist ∧
        (statOp tbl0 k0).1 = .error .notExist ∧
        existsOp tbl0 k0 = false) := by
  intro tbl key now hkey
  constructor
  · refine ⟨?_, ?_, ?_⟩ <;>
      simp [storeOp, hkey, loadOp, statOp, existsOp, getItem,
        lookupTbl_insertTbl_self, storeItem, b64encode, Except.map]
  · intro tbl0 k0 hk0 hl
    refine ⟨?_, ?_, ?_⟩ <;>
      simp [loadOp, statOp, existsOp, getItem, hk0, hl, Except.map]

theorem empty_value_not_exist_witness :
    ("a" : String) ≠ "" ∧
    (loadOp (storeOp [] "a" [] 0).2.1 "a").1 = .error .notExist ∧
    (statOp (storeOp [] "a" [] 0).2.1 "a").1 = .error .notExist ∧
    existsOp (storeOp [] "a" [] 0).2.1 "a" = false :=
  ⟨by decide,
   (empty_value_not_exist [] "a" 0 (by decide)).1.1,
   (empty_value_not_exist [] "a" 0 (by decide)).1.2.1,
   (empty_value_not_exist [] "a" 0 (by decide)).1.2.2⟩

end CertMagicDynamo
